import Mathlib

/-!
# Verification of the `TursoService` data-access layer

Shallow embedding of the data-access layer of the AgentAIChatbot
repository (`src/services/TursoService.ts`) together with the pieces of
client orchestration in `src/App.tsx` that the specification talks
about.

The SQL database is modelled as five lists of rows, one per table, kept
in insertion order.  Parameterized SQL statements become list
operations:

* `SELECT ... WHERE p` with `rows[0]` is `List.find?`;
* `SELECT ... WHERE p` returning all rows is `List.filter`, composed
  with a merge sort on `created_at` when the query has an `ORDER BY`;
* `INSERT` appends a row (callers thread the values that the TypeScript
  code obtains from `crypto.randomUUID()` and `CURRENT_TIMESTAMP` as
  explicit arguments; theorems that need their freshness assume it, the
  standard reading of UUID generation);
* `UPDATE ... WHERE p` maps over the list, rewriting matching rows;
* `DELETE ... WHERE p` filters the list.

A thrown JavaScript error is `Except.error`; every operation returns
its (possibly partially) updated database alongside its result, because
the service never opens a transaction, so statements that already ran
keep their effects when a later statement throws.

`REAL` and `INTEGER` columns are only ever stored and copied back, never
computed with, so they are embedded as `ℚ` and `Int`.
-/

namespace AgentChat

/-- The `role` column of `messages`: `CHECK (role IN ('user','assistant'))`. -/
inductive Role where
  | user : Role
  | assistant : Role
deriving DecidableEq, Repr

/-- A row of the `users` table. -/
structure UserRow where
  id : String
  email : String
  is_admin : Bool
  created_at : String
deriving DecidableEq, Repr

/-- A row of the `api_keys` table. -/
structure ApiKeyRow where
  id : String
  user_id : String
  key : String
  created_at : String
deriving DecidableEq, Repr

/-- A row of the `api_settings` table (the recreated structure, whose
credential column is named `openrouter_key`). -/
structure ApiSettingsRow where
  id : String
  user_id : String
  openrouter_key : String
  api_url : String
  model : String
  max_tokens : Int
  temperature : ℚ
  created_at : String
  updated_at : String
deriving DecidableEq, Repr

/-- A row of the `chats` table.  `last_message` is nullable. -/
structure ChatRow where
  id : String
  title : String
  user_id : String
  created_at : String
  last_message : Option String
deriving DecidableEq, Repr

/-- A row of the `messages` table. -/
structure MessageRow where
  id : String
  chat_id : String
  role : Role
  content : String
  created_at : String
deriving DecidableEq, Repr

/-- The database state: the five tables, each in insertion order. -/
structure DB where
  users : List UserRow
  api_keys : List ApiKeyRow
  api_settings : List ApiSettingsRow
  chats : List ChatRow
  messages : List MessageRow
deriving DecidableEq, Repr

/-- The state right after `initializeTables` on a fresh database. -/
def emptyDB : DB := ⟨[], [], [], [], []⟩

/-- Thrown JavaScript errors are `Except.error`; results of fallible
operations are compared with decidable equality. -/
instance {α β : Type} [DecidableEq α] [DecidableEq β] :
    DecidableEq (Except α β)
  | .error x, .error y =>
      if h : x = y then isTrue (by rw [h])
      else isFalse (fun hh => h (Except.error.inj hh))
  | .error _, .ok _ => isFalse (fun hh => Except.noConfusion hh)
  | .ok _, .error _ => isFalse (fun hh => Except.noConfusion hh)
  | .ok x, .ok y =>
      if h : x = y then isTrue (by rw [h])
      else isFalse (fun hh => h (Except.ok.inj hh))

/-- Bytewise comparison of code points, SQLite's `BINARY` collation for
`TEXT` values such as the `created_at` timestamps. -/
def charListLe : List Char → List Char → Bool
  | [], _ => true
  | _ :: _, [] => false
  | a :: as, b :: bs =>
      if a.toNat < b.toNat then true
      else if b.toNat < a.toNat then false
      else charListLe as bs

/-- `a ≤ b` for `TEXT` column values. -/
def strLe (a b : String) : Bool := charListLe a.toList b.toList

/-- Stable insertion of `a` into `l` (new element goes after existing
elements it ties with when inserted by `sortBy`). -/
def insertSorted {α : Type} (le : α → α → Bool) (a : α) : List α → List α
  | [] => [a]
  | b :: bs => if le a b then a :: b :: bs else b :: insertSorted le a bs

/-- Stable sort implementing SQL `ORDER BY` (SQLite fixes no order among
ties, so any sort consistent with the key models it). -/
def sortBy {α : Type} (le : α → α → Bool) : List α → List α
  | [] => []
  | a :: as => insertSorted le a (sortBy le as)

/-- `ORDER BY created_at ASC`. -/
def orderByCreatedAsc {α : Type} (created : α → String) (l : List α) : List α :=
  sortBy (fun a b => strLe (created a) (created b)) l

/-- `ORDER BY created_at DESC`. -/
def orderByCreatedDesc {α : Type} (created : α → String) (l : List α) : List α :=
  sortBy (fun a b => strLe (created b) (created a)) l

/-- `getUserByEmail`: `SELECT * FROM users WHERE email = ?`, first row or null. -/
def getUserByEmail (db : DB) (email : String) : Option UserRow :=
  db.users.find? (fun u => u.email == email)

/-- `getChat`: `SELECT * FROM chats WHERE id = ? AND user_id = ?`, first row or null. -/
def getChat (db : DB) (chatId userId : String) : Option ChatRow :=
  db.chats.find? (fun c => c.id == chatId && c.user_id == userId)

/-- `getChats`: `SELECT * FROM chats WHERE user_id = ? ORDER BY created_at DESC`. -/
def getChats (db : DB) (userId : String) : List ChatRow :=
  orderByCreatedDesc (fun c => c.created_at)
    (db.chats.filter (fun c => c.user_id == userId))

/-- `getChatMessages`: returns `[]` unless `getChat` finds the caller's chat,
then `SELECT * FROM messages WHERE chat_id = ? ORDER BY created_at ASC`. -/
def getChatMessages (db : DB) (chatId userId : String) : List MessageRow :=
  match getChat db chatId userId with
  | none => []
  | some _ =>
      orderByCreatedAsc (fun m => m.created_at)
        (db.messages.filter (fun m => m.chat_id == chatId))

/-- `getApiSettings`: `SELECT * FROM api_settings WHERE user_id = ? LIMIT 1`. -/
def getApiSettings (db : DB) (userId : String) : Option ApiSettingsRow :=
  db.api_settings.find? (fun s => s.user_id == userId)

/-- `getApiKeyForUser`: `SELECT key FROM api_keys WHERE user_id = ? LIMIT 1`. -/
def getApiKeyForUser (db : DB) (userId : String) : Option String :=
  (db.api_keys.find? (fun k => k.user_id == userId)).map (fun k => k.key)

/-- `validateApiKey`: `SELECT DISTINCT u.* FROM users u INNER JOIN api_keys ak
ON ak.user_id = u.id WHERE ak.key = ?`, first row or null. -/
def validateApiKey (db : DB) (apiKey : String) : Option UserRow :=
  (db.users.filter (fun u =>
    db.api_keys.any (fun ak => ak.user_id == u.id && ak.key == apiKey))).head?

/-- `listUsers`: `SELECT * FROM users ORDER BY created_at DESC`. -/
def listUsers (db : DB) : List UserRow :=
  orderByCreatedDesc (fun u => u.created_at) db.users

/-- `createChat`: inserts `(chatId, title, userId)` into `chats` (the other
columns take their defaults: `created_at = CURRENT_TIMESTAMP`, null
`last_message`), then re-reads the row by id.  The TypeScript signature is
`createChat(title, userId)`; `chatId` and `now` stand for
`crypto.randomUUID()` and `CURRENT_TIMESTAMP`. -/
def createChat (db : DB) (title userId : String) (chatId now : String) :
    Option ChatRow × DB :=
  let row : ChatRow := ⟨chatId, title, userId, now, none⟩
  let db1 : DB := { db with chats := db.chats ++ [row] }
  (db1.chats.find? (fun c => c.id == chatId), db1)

/-- `updateChatTitle`: `UPDATE chats SET title = ? WHERE id = ?`.  Note the
statement filters on the chat id only; no user identifier is involved. -/
def updateChatTitle (db : DB) (chatId title : String) : DB :=
  { db with chats := db.chats.map (fun c =>
      if c.id == chatId then { c with title := title } else c) }

/-- `addMessage`: throws `'Chat not found or access denied'` unless `getChat`
finds the caller's chat; otherwise inserts the message, updates the owning
chat's `last_message` (`WHERE id = ? AND user_id = ?`) and re-reads the
inserted row.  `messageId` and `now` stand for `crypto.randomUUID()` and
`CURRENT_TIMESTAMP`. -/
def addMessage (db : DB) (chatId : String) (role : Role) (content userId : String)
    (messageId now : String) : Except String (Option MessageRow) × DB :=
  match getChat db chatId userId with
  | none => (.error "Chat not found or access denied", db)
  | some _ =>
      let row : MessageRow := ⟨messageId, chatId, role, content, now⟩
      let db1 : DB := { db with messages := db.messages ++ [row] }
      let db2 : DB := { db1 with chats := db1.chats.map (fun c =>
        if c.id == chatId && c.user_id == userId then
          { c with last_message := some content } else c) }
      (.ok (db2.messages.find? (fun m => m.id == messageId)), db2)

/-- `deleteChat`: returns silently unless `getChat` finds the caller's chat;
otherwise `DELETE FROM messages WHERE chat_id = ?` then
`DELETE FROM chats WHERE id = ? AND user_id = ?`. -/
def deleteChat (db : DB) (chatId userId : String) : DB :=
  match getChat db chatId userId with
  | none => db
  | some _ =>
      { db with
        messages := db.messages.filter (fun m => !(m.chat_id == chatId)),
        chats := db.chats.filter (fun c =>
          !(c.id == chatId && c.user_id == userId)) }

/-- The rational `7/10`, written with an explicit numerator and denominator
so that the kernel can evaluate comparisons involving it (`rat07_eq`
identifies it with the literal `0.7` of the schema default). -/
def rat07 : ℚ := ⟨7, 10, by decide, by decide⟩

theorem rat07_eq : rat07 = 0.7 := by
  show Rat.mk' 7 10 = _
  rw [Rat.mk'_eq_divInt, Rat.divInt_eq_div]
  norm_num

/-- The `api_settings` row produced by `INSERT INTO api_settings (id, user_id)
VALUES (?, ?)`: every other column takes its schema default
(`temperature REAL NOT NULL DEFAULT 0.7`). -/
def defaultSettingsRow (uid now : String) : ApiSettingsRow :=
  ⟨uid, uid, "", "https://openrouter.ai/api/v1/chat/completions",
   "deepseek/deepseek-r1-distill-llama-70b:free", 4000, rat07, now, now⟩

/-- `createUser`: if a user with the email exists, returns them with their
existing key, or — when they have none — inserts a fresh key and inserts
default settings under `ON CONFLICT(user_id) DO NOTHING`; otherwise inserts
the user, their default settings, a fresh key, and re-reads the user row.
`userId`, `keyId`, `apiKey` and `now` stand for the `crypto.randomUUID()`
calls and `CURRENT_TIMESTAMP`. -/
def createUser (db : DB) (email : String) (isAdmin : Bool)
    (userId keyId apiKey now : String) :
    (Option UserRow × String) × DB :=
  match getUserByEmail db email with
  | some existingUser =>
      match db.api_keys.find? (fun k => k.user_id == existingUser.id) with
      | some keyRow => ((some existingUser, keyRow.key), db)
      | none =>
          let db1 : DB := { db with
            api_keys := db.api_keys ++ [⟨keyId, existingUser.id, apiKey, now⟩] }
          let db2 : DB :=
            if db1.api_settings.any (fun s => s.user_id == existingUser.id) then
              db1
            else
              { db1 with api_settings :=
                  db1.api_settings ++ [defaultSettingsRow existingUser.id now] }
          ((some existingUser, apiKey), db2)
  | none =>
      let db1 : DB := { db with
        users := db.users ++ [⟨userId, email, isAdmin, now⟩] }
      let db2 : DB := { db1 with
        api_settings := db1.api_settings ++ [defaultSettingsRow userId now] }
      let db3 : DB := { db2 with
        api_keys := db2.api_keys ++ [⟨keyId, userId, apiKey, now⟩] }
      ((db3.users.find? (fun u => u.id == userId), apiKey), db3)

/-- `generateApiKey`: throws `'User not found'` when no user row has the id;
otherwise `DELETE FROM api_keys WHERE user_id = ?` then inserts one fresh
key and returns it. -/
def generateApiKey (db : DB) (userId : String) (keyId apiKey now : String) :
    Except String String × DB :=
  match db.users.find? (fun u => u.id == userId) with
  | none => (.error "User not found", db)
  | some _ =>
      let db1 : DB := { db with
        api_keys := db.api_keys.filter (fun k => !(k.user_id == userId)) }
      let db2 : DB := { db1 with
        api_keys := db1.api_keys ++ [⟨keyId, userId, apiKey, now⟩] }
      (.ok apiKey, db2)

/-- `revokeApiKey`: `DELETE FROM api_keys WHERE key = ?`. -/
def revokeApiKey (db : DB) (apiKey : String) : DB :=
  { db with api_keys := db.api_keys.filter (fun k => !(k.key == apiKey)) }

/-- The settings fields supplied to `updateApiSettings` (the `ApiSettings`
interface minus `id`, `user_id`, `created_at`, `updated_at`). -/
structure SettingsInput where
  api_key : String
  api_url : String
  model : String
  max_tokens : Int
  temperature : ℚ
deriving DecidableEq, Repr

/-- `updateApiSettings`: when the user has no settings row, inserts one whose
`id` is the user id and whose credential column receives `settings.api_key`;
otherwise rewrites the user's row in place (`UPDATE ... WHERE user_id = ?`),
refreshing `updated_at`.  Either branch returns the resulting row
(`RETURNING *`, first row). -/
def updateApiSettings (db : DB) (userId : String) (settings : SettingsInput)
    (now : String) : Option ApiSettingsRow × DB :=
  if (db.api_settings.filter (fun s => s.user_id == userId)).isEmpty then
    let row : ApiSettingsRow :=
      ⟨userId, userId, settings.api_key, settings.api_url, settings.model,
       settings.max_tokens, settings.temperature, now, now⟩
    (some row, { db with api_settings := db.api_settings ++ [row] })
  else
    let db1 : DB := { db with api_settings := db.api_settings.map (fun s =>
      if s.user_id == userId then
        { s with
          openrouter_key := settings.api_key,
          api_url := settings.api_url,
          model := settings.model,
          max_tokens := settings.max_tokens,
          temperature := settings.temperature,
          updated_at := now }
      else s) }
    (db1.api_settings.find? (fun s => s.user_id == userId), db1)

/-- `resetAdminApiKey`: returns null unless `admin@example.com` exists and is
an admin; otherwise regenerates that user's API key via `generateApiKey`.
The follow-up `INSERT INTO api_settings (id, user_id, api_key, ...)` names
the column `api_key`, which the recreated `api_settings` table does not have
(its column is `openrouter_key`), so that statement always fails; the
surrounding `try/catch` swallows the error and returns null, keeping the
effect of `generateApiKey` (no transaction). -/
def resetAdminApiKey (db : DB) (keyId apiKey now : String) :
    Option String × DB :=
  match getUserByEmail db "admin@example.com" with
  | none => (none, db)
  | some adminUser =>
      if !adminUser.is_admin then (none, db)
      else
        let res := generateApiKey db adminUser.id keyId apiKey now
        (none, res.2)

/-- `initializeDb` (from `src/App.tsx`): after `initializeTables`, lists the
users and bootstraps `createUser('admin@example.com', true)` exactly when
the users table is empty. -/
def initializeDb (db : DB) (userId keyId apiKey now : String) : DB :=
  if (listUsers db).isEmpty then
    (createUser db "admin@example.com" true userId keyId apiKey now).2
  else db

/-- An OpenAI-style chat message as assembled in `handleMessageSubmit`
(`src/App.tsx`): only `role` and `content` are forwarded.  `content` is an
`Option` because a JavaScript property that evaluates to `undefined` (as
`chat.system_prompt` does — see `buildConversation`) is dropped from the
serialized JSON. -/
structure OutboundMessage where
  role : String
  content : Option String
deriving DecidableEq, Repr

/-- The `messages` array of the request body built in `handleMessageSubmit`:
`[{role:'system', content: chat.system_prompt}, ...messages,
{role:'user', content: messageText}]`, mapped to role/content pairs.
The system content is passed in as an `Option String` because the stored
`Chat` record of `TursoService` has no `system_prompt` field for the App to
read (see `ChatRow` and `createChat`), so `chat.system_prompt` is
`undefined` (`none`). -/
def buildConversation (systemPrompt : Option String)
    (prior : List MessageRow) (messageText : String) : List OutboundMessage :=
  ⟨"system", systemPrompt⟩ ::
    (prior.map (fun m =>
      ⟨(match m.role with | .user => "user" | .assistant => "assistant"),
       some m.content⟩) ++ [⟨"user", some messageText⟩])

/-! ## Reachable states

The client calls the service's mutating operations in arbitrary order.
Values produced by `crypto.randomUUID()` are modelled as arbitrary strings
that are fresh for the current database — the standard reading of UUID
generation (collisions are ignored; the schema's `PRIMARY KEY`/`UNIQUE`
constraints would reject them). -/

/-- Every string a database mentions in an id-like column (`id`, `user_id`,
`chat_id`, `key`): a fresh UUID is none of these. -/
def usedIds (db : DB) : List String :=
  db.users.map (fun u => u.id) ++
  db.api_keys.map (fun k => k.id) ++
  db.api_keys.map (fun k => k.user_id) ++
  db.api_keys.map (fun k => k.key) ++
  db.api_settings.map (fun s => s.id) ++
  db.api_settings.map (fun s => s.user_id) ++
  db.chats.map (fun c => c.id) ++
  db.chats.map (fun c => c.user_id) ++
  db.messages.map (fun m => m.id) ++
  db.messages.map (fun m => m.chat_id)

/-- `x` is a fresh UUID for `db`. -/
def FreshId (db : DB) (x : String) : Prop := x ∉ usedIds db

instance (db : DB) (x : String) : Decidable (FreshId db x) := by
  unfold FreshId; infer_instance

/-- One invocation of a mutating operation of `TursoService`, with fresh
UUIDs for the values the code draws from `crypto.randomUUID()`. -/
inductive Step : DB → DB → Prop where
  | ofCreateChat (db : DB) (title userId chatId now : String)
      (h : FreshId db chatId) :
      Step db (createChat db title userId chatId now).2
  | ofUpdateChatTitle (db : DB) (chatId title : String) :
      Step db (updateChatTitle db chatId title)
  | ofAddMessage (db : DB) (chatId : String) (role : Role)
      (content userId messageId now : String) (h : FreshId db messageId) :
      Step db (addMessage db chatId role content userId messageId now).2
  | ofDeleteChat (db : DB) (chatId userId : String) :
      Step db (deleteChat db chatId userId)
  | ofCreateUser (db : DB) (email : String) (isAdmin : Bool)
      (userId keyId apiKey now : String) (h1 : FreshId db userId)
      (h2 : FreshId db keyId) (h3 : FreshId db apiKey) :
      Step db (createUser db email isAdmin userId keyId apiKey now).2
  | ofGenerateApiKey (db : DB) (userId keyId apiKey now : String)
      (h1 : FreshId db keyId) (h2 : FreshId db apiKey) :
      Step db (generateApiKey db userId keyId apiKey now).2
  | ofRevokeApiKey (db : DB) (apiKey : String) :
      Step db (revokeApiKey db apiKey)
  | ofUpdateApiSettings (db : DB) (userId : String) (settings : SettingsInput)
      (now : String) :
      Step db (updateApiSettings db userId settings now).2
  | ofResetAdminApiKey (db : DB) (keyId apiKey now : String)
      (h1 : FreshId db keyId) (h2 : FreshId db apiKey) :
      Step db (resetAdminApiKey db keyId apiKey now).2

/-- The states reachable from a freshly initialized database. -/
inductive Reachable : DB → Prop where
  | init : Reachable emptyDB
  | step {db db' : DB} : Reachable db → Step db db' → Reachable db'

/-! ## Invariants -/

/-- Each user identifier owns at most one `api_keys` row
(`UNIQUE(user_id)` in the schema; maintained by the code's
check-before-insert and delete-then-insert discipline). -/
def ApiKeysPerUserUnique (db : DB) : Prop :=
  (db.api_keys.map (fun k => k.user_id)).Nodup

/-- Each user identifier owns at most one `api_settings` row
(`UNIQUE(user_id)` in the schema). -/
def ApiSettingsPerUserUnique (db : DB) : Prop :=
  (db.api_settings.map (fun s => s.user_id)).Nodup

/-- User emails are unique (`email TEXT UNIQUE NOT NULL`; maintained by
`createUser`'s lookup-before-insert). -/
def EmailsUnique (db : DB) : Prop :=
  (db.users.map (fun u => u.email)).Nodup

/-- The conjunction of the per-user/per-email uniqueness invariants. -/
def Inv (db : DB) : Prop :=
  ApiKeysPerUserUnique db ∧ ApiSettingsPerUserUnique db ∧ EmailsUnique db

/-! ## Helper lemmas -/

theorem mem_insertSorted {α : Type} (le : α → α → Bool) (a x : α) :
    ∀ l : List α, x ∈ insertSorted le a l ↔ x = a ∨ x ∈ l := by
  intro l
  induction l with
  | nil => simp [insertSorted]
  | cons b bs ih =>
      by_cases h : le a b
      · simp [insertSorted, h]
      · simp only [insertSorted, h, Bool.false_eq_true, if_false, List.mem_cons, ih]
        tauto

theorem mem_sortBy {α : Type} (le : α → α → Bool) (x : α) :
    ∀ l : List α, x ∈ sortBy le l ↔ x ∈ l := by
  intro l
  induction l with
  | nil => simp [sortBy]
  | cons b bs ih => simp [sortBy, mem_insertSorted, ih]

theorem head?_filter_eq_find? {α : Type} (p : α → Bool) :
    ∀ l : List α, (l.filter p).head? = l.find? p := by
  intro l
  induction l with
  | nil => rfl
  | cons b bs ih =>
      by_cases h : p b
      · simp [List.filter_cons, List.find?_cons, h]
      · simp [List.filter_cons, List.find?_cons, h, ih]

/-- A map that fixes every element satisfying `p` and never changes whether
`p` holds leaves the `p`-filtered sublist untouched. -/
theorem filter_map_untouched {α : Type} (p : α → Bool) (f : α → α) :
    ∀ l : List α, (∀ x ∈ l, p x = true → f x = x) →
      (∀ x ∈ l, p (f x) = p x) → (l.map f).filter p = l.filter p := by
  intro l
  induction l with
  | nil => intro _ _; rfl
  | cons b bs ih =>
      intro hfix hsame
      have hpb := hsame b (List.mem_cons_self b bs)
      by_cases h : p b
      · have : f b = b := hfix b (List.mem_cons_self b bs) h
        simp only [List.map_cons, List.filter_cons, hpb, h, if_true, this]
        rw [ih (fun x hx => hfix x (List.mem_cons_of_mem b hx))
              (fun x hx => hsame x (List.mem_cons_of_mem b hx))]
      · simp only [List.map_cons, List.filter_cons, hpb,
          Bool.not_eq_true] at *
        simp only [h, if_false]
        exact ih (fun x hx => hfix x (List.mem_cons_of_mem b hx))
          (fun x hx => hsame x (List.mem_cons_of_mem b hx))

/-- `getChat` finds nothing exactly when no row matches both filters. -/
theorem getChat_eq_none_iff (db : DB) (c u : String) :
    getChat db c u = none ↔ ∀ r ∈ db.chats, ¬(r.id = c ∧ r.user_id = u) := by
  unfold getChat
  rw [List.find?_eq_none]
  constructor
  · intro h r hr hcon
    exact h r hr (by simp [hcon.1, hcon.2])
  · intro h r hr hcon
    simp only [Bool.and_eq_true, beq_iff_eq] at hcon
    exact h r hr hcon

/-- What a successful `getChat` lookup returns. -/
theorem getChat_eq_some (db : DB) (c u : String) (r : ChatRow)
    (h : getChat db c u = some r) :
    r ∈ db.chats ∧ r.id = c ∧ r.user_id = u := by
  unfold getChat at h
  refine ⟨List.mem_of_find?_eq_some h, ?_⟩
  have := List.find?_some h
  simp only [Bool.and_eq_true, beq_iff_eq] at this
  exact this

/-- A matching row makes `getChat` succeed. -/
theorem getChat_isSome (db : DB) (c u : String) (r : ChatRow)
    (hr : r ∈ db.chats) (hid : r.id = c) (hu : r.user_id = u) :
    (getChat db c u).isSome := by
  cases hg : getChat db c u with
  | some _ => rfl
  | none => exact absurd ⟨hid, hu⟩ ((getChat_eq_none_iff db c u).mp hg r hr)

/-! ## C1 — ownership guard on reads and writes of messages -/

/-- C1: for every chat identifier `c` and user identifier `u` such that no
chat row has id `c` and user_id `u`, `getChatMessages(c, u)` returns the
empty list, and `addMessage(c, role, content, u)` throws
`'Chat not found or access denied'` and leaves the `messages` table and the
`chats` table unchanged. -/
theorem C1_unowned_chat_guard (db : DB) (c u : String) (role : Role)
    (content mid now : String)
    (h : ∀ r ∈ db.chats, ¬(r.id = c ∧ r.user_id = u)) :
    getChatMessages db c u = [] ∧
    (addMessage db c role content u mid now).1 =
        .error "Chat not found or access denied" ∧
    (addMessage db c role content u mid now).2.messages = db.messages ∧
    (addMessage db c role content u mid now).2.chats = db.chats := by
  have hg : getChat db c u = none := (getChat_eq_none_iff db c u).mpr h
  refine ⟨?_, ?_, ?_, ?_⟩ <;> simp [getChatMessages, addMessage, hg]

/-- Witness for C1: a database whose only chat `c1` belongs to `u2`, queried
on behalf of `u1`. -/
theorem C1_unowned_chat_guard_witness :
    getChatMessages ⟨[], [], [], [⟨"c1", "t", "u2", "T1", none⟩],
        [⟨"m1", "c1", .user, "hi", "T1"⟩]⟩ "c1" "u1" = [] ∧
    (addMessage ⟨[], [], [], [⟨"c1", "t", "u2", "T1", none⟩],
        [⟨"m1", "c1", .user, "hi", "T1"⟩]⟩ "c1" .user "x" "u1" "m2" "T2").1 =
      .error "Chat not found or access denied" ∧
    (addMessage ⟨[], [], [], [⟨"c1", "t", "u2", "T1", none⟩],
        [⟨"m1", "c1", .user, "hi", "T1"⟩]⟩ "c1" .user "x" "u1" "m2" "T2").2.messages =
      [⟨"m1", "c1", .user, "hi", "T1"⟩] ∧
    (addMessage ⟨[], [], [], [⟨"c1", "t", "u2", "T1", none⟩],
        [⟨"m1", "c1", .user, "hi", "T1"⟩]⟩ "c1" .user "x" "u1" "m2" "T2").2.chats =
      [⟨"c1", "t", "u2", "T1", none⟩] :=
  C1_unowned_chat_guard
    ⟨[], [], [], [⟨"c1", "t", "u2", "T1", none⟩],
     [⟨"m1", "c1", .user, "hi", "T1"⟩]⟩ "c1" "u1" .user "x" "m2" "T2"
    (by decide)

/-! ## C3 — deleting a chat cascades to its messages -/

/-- C3: when a chat row with id `c` and user_id `u` exists, `deleteChat(c,u)`
removes that chat row and every message row with chat_id `c` while keeping
every other chat and message (and the other three tables) unchanged; when no
such chat row exists, `deleteChat(c,u)` changes no table. -/
theorem C3_deleteChat_cascade (db : DB) (c u : String) :
    ((∃ r ∈ db.chats, r.id = c ∧ r.user_id = u) →
      (deleteChat db c u).chats =
          db.chats.filter (fun r => !(r.id == c && r.user_id == u)) ∧
      (deleteChat db c u).messages =
          db.messages.filter (fun m => !(m.chat_id == c)) ∧
      (∀ r ∈ (deleteChat db c u).chats, ¬(r.id = c ∧ r.user_id = u)) ∧
      (∀ m ∈ (deleteChat db c u).messages, m.chat_id ≠ c) ∧
      (deleteChat db c u).users = db.users ∧
      (deleteChat db c u).api_keys = db.api_keys ∧
      (deleteChat db c u).api_settings = db.api_settings) ∧
    ((∀ r ∈ db.chats, ¬(r.id = c ∧ r.user_id = u)) → deleteChat db c u = db) := by
  constructor
  · rintro ⟨r0, hr0, hid, hu⟩
    cases hg : getChat db c u with
    | none => exact absurd ⟨hid, hu⟩ ((getChat_eq_none_iff db c u).mp hg r0 hr0)
    | some r1 =>
        unfold deleteChat
        rw [hg]
        refine ⟨rfl, rfl, ?_, ?_, rfl, rfl, rfl⟩
        · intro r hr hcon
          have hmem : r ∈ db.chats ∧ (¬r.id = c ∨ ¬r.user_id = u) := by
            simpa [deleteChat, hg] using hr
          rcases hmem.2 with h1 | h1
          · exact h1 hcon.1
          · exact h1 hcon.2
        · intro m hm hcon
          have hmem : m ∈ db.messages ∧ ¬m.chat_id = c := by
            simpa [deleteChat, hg] using hm
          exact hmem.2 hcon
  · intro h
    have hg : getChat db c u = none := (getChat_eq_none_iff db c u).mpr h
    unfold deleteChat
    rw [hg]

/-- Witness for C3: `u2` deletes its chat `c1`, which removes `c1` and its
message but keeps `u3`'s chat `c2` and its message; deleting on behalf of a
non-owner `u9` changes nothing. -/
theorem C3_deleteChat_cascade_witness :
    (deleteChat ⟨[], [], [],
        [⟨"c1", "t", "u2", "T1", none⟩, ⟨"c2", "s", "u3", "T1", none⟩],
        [⟨"m1", "c1", .user, "hi", "T1"⟩, ⟨"m2", "c2", .user, "yo", "T1"⟩]⟩
      "c1" "u2").chats = [⟨"c2", "s", "u3", "T1", none⟩] ∧
    (deleteChat ⟨[], [], [],
        [⟨"c1", "t", "u2", "T1", none⟩, ⟨"c2", "s", "u3", "T1", none⟩],
        [⟨"m1", "c1", .user, "hi", "T1"⟩, ⟨"m2", "c2", .user, "yo", "T1"⟩]⟩
      "c1" "u2").messages = [⟨"m2", "c2", .user, "yo", "T1"⟩] ∧
    deleteChat ⟨[], [], [],
        [⟨"c1", "t", "u2", "T1", none⟩, ⟨"c2", "s", "u3", "T1", none⟩],
        [⟨"m1", "c1", .user, "hi", "T1"⟩, ⟨"m2", "c2", .user, "yo", "T1"⟩]⟩
      "c1" "u9" =
      ⟨[], [], [],
        [⟨"c1", "t", "u2", "T1", none⟩, ⟨"c2", "s", "u3", "T1", none⟩],
        [⟨"m1", "c1", .user, "hi", "T1"⟩, ⟨"m2", "c2", .user, "yo", "T1"⟩]⟩ := by
  refine ⟨?_, ?_, ?_⟩
  · exact (((C3_deleteChat_cascade _ "c1" "u2").1 (by decide)).1).trans (by decide)
  · exact (((C3_deleteChat_cascade _ "c1" "u2").1 (by decide)).2.1).trans (by decide)
  · exact (C3_deleteChat_cascade _ "c1" "u9").2 (by decide)

/-! ## C9 — `addMessage` updates `last_message` and nothing else in `chats` -/

/-- C9: when user `u` owns chat `c`, `addMessage(c, role, content, u)`
rewrites exactly the rows of `chats` with id `c` and user_id `u`, setting
`last_message := content`, and leaves their other four columns and every
other row of `chats` unchanged. -/
theorem C9_addMessage_chats_frame (db : DB) (c u : String) (r0 : ChatRow)
    (hr : r0 ∈ db.chats) (hid : r0.id = c) (hu : r0.user_id = u)
    (role : Role) (content mid now : String) :
    (addMessage db c role content u mid now).2.chats =
      db.chats.map (fun r =>
        if r.id = c ∧ r.user_id = u then { r with last_message := some content }
        else r) := by
  cases hg : getChat db c u with
  | none => exact absurd ⟨hid, hu⟩ ((getChat_eq_none_iff db c u).mp hg r0 hr)
  | some r1 =>
      unfold addMessage
      rw [hg]
      apply List.map_congr_left
      intro r _
      by_cases h1 : r.id = c ∧ r.user_id = u
      · simp [h1.1, h1.2, h1]
      · have hb : ¬(r.id == c && r.user_id == u) = true := by
          simpa only [Bool.and_eq_true, beq_iff_eq] using h1
        simp [hb, h1]

/-- Witness for C9: `u2` posts to its chat `c1`; `c1.last_message` becomes
the new content while the sibling chat row is untouched. -/
theorem C9_addMessage_chats_frame_witness :
    (addMessage ⟨[], [], [],
        [⟨"c1", "t", "u2", "T1", none⟩, ⟨"c2", "s", "u3", "T1", some "old"⟩],
        []⟩ "c1" .user "x" "u2" "m2" "T2").2.chats =
      [⟨"c1", "t", "u2", "T1", some "x"⟩, ⟨"c2", "s", "u3", "T1", some "old"⟩] :=
  (C9_addMessage_chats_frame ⟨[], [], [],
      [⟨"c1", "t", "u2", "T1", none⟩, ⟨"c2", "s", "u3", "T1", some "old"⟩], []⟩
    "c1" "u2" ⟨"c1", "t", "u2", "T1", none⟩ (by decide) rfl rfl
    .user "x" "m2" "T2").trans (by decide)

/-! ## C2 — per-user ownership filtering -/

theorem filter_filter_of_imp {α : Type} (p q : α → Bool) :
    ∀ l : List α, (∀ x ∈ l, p x = true → q x = true) →
      (l.filter q).filter p = l.filter p := by
  intro l
  induction l with
  | nil => intro _; rfl
  | cons b bs ih =>
      intro h
      by_cases hp : p b
      · have hq : q b = true := h b (List.mem_cons_self b bs) hp
        simp only [List.filter_cons, hq, if_true, hp]
        rw [ih (fun x hx => h x (List.mem_cons_of_mem b hx))]
      · have hrest := ih (fun x hx => h x (List.mem_cons_of_mem b hx))
        by_cases hq : q b
        · simp only [List.filter_cons, hq, if_true, hp]
          simpa [hp] using hrest
        · simp only [List.filter_cons, hq, Bool.false_eq_true, if_false]
          simpa [hp] using hrest

/-- C2 as stated is false: `updateChatTitle` writes user-owned `chats` rows
yet takes no user identifier at all — its statement is
`UPDATE chats SET title = ? WHERE id = ?` — so whatever user the caller acts
for, it modifies a chat owned by the distinct user `u2`.  Concretely, on a
database whose only chat `c1` belongs to `u2`, `updateChatTitle('c1',
'hacked')` rewrites `u2`'s row. -/
theorem C2_counterexample_updateChatTitle :
    (updateChatTitle ⟨[], [], [], [⟨"c1", "t", "u2", "T1", none⟩], []⟩
        "c1" "hacked").chats = [⟨"c1", "hacked", "u2", "T1", none⟩] := by decide

/-- C2 (amended): except `updateChatTitle` — which filters only on the chat
id and can modify any user's chat — the data-access operations filter on the
caller-supplied user identifier, and for `u1 ≠ u2` no such operation invoked
with `u1` modifies or returns a chat, message, or settings row owned by
`u2`.  (`hids` is the `PRIMARY KEY` of `chats`: ids are unique, so a
message's owning chat is unambiguous.) -/
theorem C2_amended_ownership_isolation (db : DB) (u1 u2 : String)
    (hne : u1 ≠ u2)
    (hids : (db.chats.map (fun r => r.id)).Nodup) :
    (∀ r ∈ getChats db u1, r.user_id = u1) ∧
    (∀ c r, getChat db c u1 = some r → r.user_id = u1) ∧
    (∀ c, ∀ m ∈ getChatMessages db c u1,
        ∃ r ∈ db.chats, r.id = m.chat_id ∧ r.user_id = u1) ∧
    (∀ s, getApiSettings db u1 = some s → s.user_id = u1) ∧
    (∀ c role content mid now,
        (addMessage db c role content u1 mid now).2.chats.filter
            (fun r => r.user_id == u2) =
          db.chats.filter (fun r => r.user_id == u2) ∧
        ∀ r ∈ db.chats, r.user_id = u2 →
          (addMessage db c role content u1 mid now).2.messages.filter
              (fun m => m.chat_id == r.id) =
            db.messages.filter (fun m => m.chat_id == r.id)) ∧
    (∀ c,
        (deleteChat db c u1).chats.filter (fun r => r.user_id == u2) =
          db.chats.filter (fun r => r.user_id == u2) ∧
        ∀ r ∈ db.chats, r.user_id = u2 →
          (deleteChat db c u1).messages.filter (fun m => m.chat_id == r.id) =
            db.messages.filter (fun m => m.chat_id == r.id)) ∧
    (∀ s now,
        (updateApiSettings db u1 s now).2.api_settings.filter
            (fun x => x.user_id == u2) =
          db.api_settings.filter (fun x => x.user_id == u2)) := by
  have chatNe : ∀ c : String, ∀ r1 ∈ db.chats, r1.id = c → r1.user_id = u1 →
      ∀ r ∈ db.chats, r.user_id = u2 → r.id ≠ c := by
    intro c r1 hr1 hid1 hu1 r hr hu hidr
    have : r = r1 := List.inj_on_of_nodup_map hids hr hr1 (by rw [hidr, hid1])
    exact hne (by rw [← hu1, ← this, hu])
  refine ⟨?_, ?_, ?_, ?_, ?_, ?_, ?_⟩
  · intro r hr
    have := List.mem_filter.mp ((mem_sortBy _ r _).mp hr)
    simpa using this.2
  · intro c r h
    exact ((getChat_eq_some db c u1 r h).2).2
  · intro c m hm
    cases hg : getChat db c u1 with
    | none => simp [getChatMessages, hg] at hm
    | some r1 =>
        obtain ⟨hmem, hcid⟩ := List.mem_filter.mp
          ((mem_sortBy _ m _).mp (by simpa [getChatMessages, hg] using hm))
        obtain ⟨hr1, hid1, hu1⟩ := getChat_eq_some db c u1 r1 hg
        exact ⟨r1, hr1, by rw [hid1, beq_iff_eq.mp hcid], hu1⟩
  · intro s h
    have := List.find?_some h
    simpa using this
  · intro c role content mid now
    cases hg : getChat db c u1 with
    | none => simp [addMessage, hg]
    | some r1 =>
        obtain ⟨hr1, hid1, hu1⟩ := getChat_eq_some db c u1 r1 hg
        have heq : (addMessage db c role content u1 mid now).2 =
            { db with
              messages := db.messages ++ [⟨mid, c, role, content, now⟩],
              chats := db.chats.map (fun r =>
                if r.id == c && r.user_id == u1 then
                  { r with last_message := some content } else r) } := by
          simp [addMessage, hg]
        rw [heq]
        constructor
        · apply filter_map_untouched
          · intro x _ hx
            have hxu : x.user_id = u2 := by simpa using hx
            have : ¬(x.id == c && x.user_id == u1) = true := by
              simp only [Bool.and_eq_true, beq_iff_eq]
              rintro ⟨-, h2⟩
              exact hne (h2.symm.trans hxu)
            simp [this]
          · intro x _
            by_cases hb : (x.id == c && x.user_id == u1) = true <;> simp [hb]
        · intro r hr hu
          rw [List.filter_append]
          have hne2 : r.id ≠ c := chatNe c r1 hr1 hid1 hu1 r hr hu
          have hfalse : ((⟨mid, c, role, content, now⟩ : MessageRow).chat_id
              == r.id) = false := by
            simp only [beq_eq_false_iff_ne]
            exact fun h => hne2 h.symm
          simp [List.filter_cons, hfalse]
  · intro c
    cases hg : getChat db c u1 with
    | none => simp [deleteChat, hg]
    | some r1 =>
        obtain ⟨hr1, hid1, hu1⟩ := getChat_eq_some db c u1 r1 hg
        have heq : deleteChat db c u1 =
            { db with
              messages := db.messages.filter (fun m => !(m.chat_id == c)),
              chats := db.chats.filter (fun r =>
                !(r.id == c && r.user_id == u1)) } := by
          simp [deleteChat, hg]
        rw [heq]
        constructor
        · apply filter_filter_of_imp
          intro x _ hx
          have hxu : x.user_id = u2 := by simpa using hx
          simp only [Bool.not_eq_eq_eq_not, Bool.not_true, Bool.and_eq_false_iff,
            beq_eq_false_iff_ne]
          right
          intro h2
          exact hne (h2.symm.trans hxu)
        · intro r hr hu
          apply filter_filter_of_imp
          intro m _ hm
          have hmc : m.chat_id = r.id := by simpa using hm
          have : r.id ≠ c := chatNe c r1 hr1 hid1 hu1 r hr hu
          simp [hmc, this]
  · intro s now
    unfold updateApiSettings
    by_cases he : (db.api_settings.filter (fun x => x.user_id == u1)).isEmpty
    · simp only [he, if_true, List.filter_append]
      have : ¬(u1 == u2) = true := by simpa using hne
      simp [List.filter_cons, this]
    · simp only [he, Bool.false_eq_true, if_false]
      apply filter_map_untouched
      · intro x _ hx
        have hxu : x.user_id = u2 := by simpa using hx
        have : ¬(x.user_id == u1) = true := by
          simp only [beq_iff_eq, hxu]
          exact fun h => hne h.symm
        simp [this]
      · intro x _
        by_cases hb : (x.user_id == u1) = true <;> simp [hb]

/-- Witness for the amended C2: `alice` posts to and deletes her chat `c1`;
`bob`'s chat `c2` and its message survive both untouched. -/
theorem C2_amended_ownership_isolation_witness :
    (addMessage ⟨[], [], [],
        [⟨"c1", "t", "alice", "T1", none⟩, ⟨"c2", "s", "bob", "T1", none⟩],
        [⟨"m1", "c2", .user, "hi", "T1"⟩]⟩
      "c1" .user "x" "alice" "m9" "T2").2.chats.filter
        (fun r => r.user_id == "bob") = [⟨"c2", "s", "bob", "T1", none⟩] ∧
    (deleteChat ⟨[], [], [],
        [⟨"c1", "t", "alice", "T1", none⟩, ⟨"c2", "s", "bob", "T1", none⟩],
        [⟨"m1", "c2", .user, "hi", "T1"⟩]⟩
      "c1" "alice").messages.filter (fun m => m.chat_id == "c2") =
        [⟨"m1", "c2", .user, "hi", "T1"⟩] := by
  have H := C2_amended_ownership_isolation
    ⟨[], [], [],
      [⟨"c1", "t", "alice", "T1", none⟩, ⟨"c2", "s", "bob", "T1", none⟩],
      [⟨"m1", "c2", .user, "hi", "T1"⟩]⟩
    "alice" "bob" (by decide) (by decide)
  refine ⟨?_, ?_⟩
  · exact ((H.2.2.2.2.1 "c1" .user "x" "m9" "T2").1).trans (by decide)
  · exact (((H.2.2.2.2.2.1 "c1").2) ⟨"c2", "s", "bob", "T1", none⟩
      (by decide) rfl).trans (by decide)

/-! ## Preservation of the uniqueness invariants -/

theorem FreshId.not_mem_api_keys_user_id {db : DB} {x : String}
    (h : FreshId db x) : x ∉ db.api_keys.map (fun k => k.user_id) := by
  intro hx
  exact h (by unfold usedIds; simp only [List.mem_append]; tauto)

theorem FreshId.not_mem_api_settings_user_id {db : DB} {x : String}
    (h : FreshId db x) : x ∉ db.api_settings.map (fun s => s.user_id) := by
  intro hx
  exact h (by unfold usedIds; simp only [List.mem_append]; tauto)

theorem nodup_map_append {α β : Type} (l : List α) (r : α) (f : α → β)
    (h : (l.map f).Nodup) (hr : f r ∉ l.map f) : ((l ++ [r]).map f).Nodup := by
  rw [List.map_append]
  simp only [List.map_cons, List.map_nil, List.nodup_append, List.nodup_cons,
    List.not_mem_nil, not_false_iff, List.nodup_nil, true_and, and_true,
    List.disjoint_singleton]
  exact ⟨h, hr⟩

theorem inv_createChat (db : DB) (t u cid now : String) (h : Inv db) :
    Inv (createChat db t u cid now).2 := by
  simpa [Inv, ApiKeysPerUserUnique, ApiSettingsPerUserUnique, EmailsUnique,
    createChat] using h

theorem inv_updateChatTitle (db : DB) (c t : String) (h : Inv db) :
    Inv (updateChatTitle db c t) := by
  simpa [Inv, ApiKeysPerUserUnique, ApiSettingsPerUserUnique, EmailsUnique,
    updateChatTitle] using h

theorem inv_addMessage (db : DB) (c : String) (role : Role)
    (content u mid now : String) (h : Inv db) :
    Inv (addMessage db c role content u mid now).2 := by
  cases hg : getChat db c u with
  | none => simpa [addMessage, hg] using h
  | some r =>
      simpa [Inv, ApiKeysPerUserUnique, ApiSettingsPerUserUnique, EmailsUnique,
        addMessage, hg] using h

theorem inv_deleteChat (db : DB) (c u : String) (h : Inv db) :
    Inv (deleteChat db c u) := by
  cases hg : getChat db c u with
  | none => simpa [deleteChat, hg] using h
  | some r =>
      simpa [Inv, ApiKeysPerUserUnique, ApiSettingsPerUserUnique, EmailsUnique,
        deleteChat, hg] using h

theorem inv_revokeApiKey (db : DB) (k : String) (h : Inv db) :
    Inv (revokeApiKey db k) := by
  obtain ⟨h1, h2, h3⟩ := h
  refine ⟨?_, h2, h3⟩
  exact List.Nodup.sublist ((db.api_keys.filter_sublist).map _) h1

theorem inv_generateApiKey (db : DB) (u kid key now : String) (h : Inv db) :
    Inv (generateApiKey db u kid key now).2 := by
  obtain ⟨h1, h2, h3⟩ := h
  cases hf : db.users.find? (fun x => x.id == u) with
  | none => simpa [generateApiKey, hf] using ⟨h1, h2, h3⟩
  | some _ =>
      refine ⟨?_, by simpa [generateApiKey, hf] using h2,
        by simpa [generateApiKey, hf] using h3⟩
      unfold ApiKeysPerUserUnique
      have heq : (generateApiKey db u kid key now).2.api_keys =
          db.api_keys.filter (fun k => !(k.user_id == u)) ++
            [(⟨kid, u, key, now⟩ : ApiKeyRow)] := by
        simp [generateApiKey, hf]
      rw [heq]
      apply nodup_map_append
      · exact List.Nodup.sublist ((db.api_keys.filter_sublist).map _) h1
      · intro hmem
        obtain ⟨k0, hk0, hk0u⟩ := List.mem_map.mp hmem
        have := (List.mem_filter.mp hk0).2
        rw [hk0u] at this
        simp at this

theorem inv_updateApiSettings (db : DB) (u : String) (s : SettingsInput)
    (now : String) (h : Inv db) : Inv (updateApiSettings db u s now).2 := by
  obtain ⟨h1, h2, h3⟩ := h
  by_cases he : (db.api_settings.filter (fun x => x.user_id == u)).isEmpty
  · refine ⟨by simpa [updateApiSettings, he] using h1, ?_,
      by simpa [updateApiSettings, he] using h3⟩
    have hnone : ∀ x ∈ db.api_settings, x.user_id ≠ u := by
      intro x hx hxu
      have : x ∈ db.api_settings.filter (fun x => x.user_id == u) :=
        List.mem_filter.mpr ⟨hx, by simp [hxu]⟩
      rw [List.isEmpty_iff.mp he] at this
      simp at this
    unfold ApiSettingsPerUserUnique
    have heq : (updateApiSettings db u s now).2.api_settings =
        db.api_settings ++
          [(⟨u, u, s.api_key, s.api_url, s.model, s.max_tokens, s.temperature,
            now, now⟩ : ApiSettingsRow)] := by
      simp [updateApiSettings, he]
    rw [heq]
    apply nodup_map_append _ _ _ h2
    intro hmem
    obtain ⟨x, hx, hxu⟩ := List.mem_map.mp hmem
    exact hnone x hx hxu
  · refine ⟨by simpa [updateApiSettings, he] using h1, ?_,
      by simpa [updateApiSettings, he] using h3⟩
    unfold ApiSettingsPerUserUnique
    have heq : (updateApiSettings db u s now).2.api_settings =
        db.api_settings.map (fun x =>
          if x.user_id == u then
            { x with
              openrouter_key := s.api_key,
              api_url := s.api_url,
              model := s.model,
              max_tokens := s.max_tokens,
              temperature := s.temperature,
              updated_at := now }
          else x) := by
      simp [updateApiSettings, he]
    rw [heq, List.map_map]
    have hcomp : db.api_settings.map
        ((fun x : ApiSettingsRow => x.user_id) ∘ (fun x =>
          if x.user_id == u then
            { x with
              openrouter_key := s.api_key,
              api_url := s.api_url,
              model := s.model,
              max_tokens := s.max_tokens,
              temperature := s.temperature,
              updated_at := now }
          else x)) =
        db.api_settings.map (fun x => x.user_id) := by
      apply List.map_congr_left
      intro x _
      simp only [Function.comp_apply]
      split <;> rfl
    rw [hcomp]
    exact h2

theorem inv_createUser (db : DB) (email : String) (isAdmin : Bool)
    (uid kid key now : String) (hu : FreshId db uid) (h : Inv db) :
    Inv (createUser db email isAdmin uid kid key now).2 := by
  obtain ⟨h1, h2, h3⟩ := h
  cases he : getUserByEmail db email with
  | some eu =>
      cases hk : db.api_keys.find? (fun k => k.user_id == eu.id) with
      | some keyRow => simpa [createUser, he, hk] using ⟨h1, h2, h3⟩
      | none =>
          have hknot : eu.id ∉ db.api_keys.map (fun k => k.user_id) := by
            intro hmem
            obtain ⟨k0, hk0, hk0u⟩ := List.mem_map.mp hmem
            have := List.find?_eq_none.mp hk k0 hk0
            simp [hk0u] at this
          have heqk : (createUser db email isAdmin uid kid key now).2.api_keys =
              db.api_keys ++ [(⟨kid, eu.id, key, now⟩ : ApiKeyRow)] := by
            by_cases hs : db.api_settings.any (fun s => s.user_id == eu.id) <;>
              simp [createUser, he, hk, hs]
          by_cases hs : db.api_settings.any (fun s => s.user_id == eu.id)
          · refine ⟨?_, by simpa [createUser, he, hk, hs] using h2,
              by simpa [createUser, he, hk, hs] using h3⟩
            unfold ApiKeysPerUserUnique
            rw [heqk]
            exact nodup_map_append _ _ _ h1 hknot
          · have hsnot : eu.id ∉ db.api_settings.map (fun s => s.user_id) := by
              intro hmem
              obtain ⟨s0, hs0, hs0u⟩ := List.mem_map.mp hmem
              exact hs (List.any_eq_true.mpr ⟨s0, hs0, by simp [hs0u]⟩)
            refine ⟨?_, ?_, by simpa [createUser, he, hk, hs] using h3⟩
            · unfold ApiKeysPerUserUnique
              rw [heqk]
              exact nodup_map_append _ _ _ h1 hknot
            · unfold ApiSettingsPerUserUnique
              have heqs : (createUser db email isAdmin uid kid key now).2.api_settings =
                  db.api_settings ++ [defaultSettingsRow eu.id now] := by
                simp [createUser, he, hk, hs]
              rw [heqs]
              exact nodup_map_append _ _ _ h2 hsnot
  | none =>
      have he' : db.users.find? (fun x => x.email == email) = none := he
      have hemail : email ∉ db.users.map (fun x => x.email) := by
        intro hmem
        obtain ⟨u0, hu0, hu0e⟩ := List.mem_map.mp hmem
        have := List.find?_eq_none.mp he' u0 hu0
        simp [hu0e] at this
      refine ⟨?_, ?_, ?_⟩
      · unfold ApiKeysPerUserUnique
        have heqk : (createUser db email isAdmin uid kid key now).2.api_keys =
            db.api_keys ++ [(⟨kid, uid, key, now⟩ : ApiKeyRow)] := by
          simp [createUser, he]
        rw [heqk]
        exact nodup_map_append _ _ _ h1 hu.not_mem_api_keys_user_id
      · unfold ApiSettingsPerUserUnique
        have heqs : (createUser db email isAdmin uid kid key now).2.api_settings =
            db.api_settings ++ [defaultSettingsRow uid now] := by
          simp [createUser, he]
        rw [heqs]
        exact nodup_map_append _ _ _ h2 hu.not_mem_api_settings_user_id
      · unfold EmailsUnique
        have hequ : (createUser db email isAdmin uid kid key now).2.users =
            db.users ++ [(⟨uid, email, isAdmin, now⟩ : UserRow)] := by
          simp [createUser, he]
        rw [hequ]
        exact nodup_map_append _ _ _ h3 hemail

theorem inv_resetAdminApiKey (db : DB) (kid key now : String) (h : Inv db) :
    Inv (resetAdminApiKey db kid key now).2 := by
  cases he : getUserByEmail db "admin@example.com" with
  | none => simpa [resetAdminApiKey, he] using h
  | some adminUser =>
      by_cases ha : adminUser.is_admin
      · have : (resetAdminApiKey db kid key now).2 =
            (generateApiKey db adminUser.id kid key now).2 := by
          simp [resetAdminApiKey, he, ha]
        rw [this]
        exact inv_generateApiKey db adminUser.id kid key now h
      · simpa [resetAdminApiKey, he, ha] using h

/-- Every operation of the service preserves the uniqueness invariants. -/
theorem step_inv {db db' : DB} (s : Step db db') (h : Inv db) : Inv db' := by
  cases s with
  | ofCreateChat t u cid now _ => exact inv_createChat db t u cid now h
  | ofUpdateChatTitle c t => exact inv_updateChatTitle db c t h
  | ofAddMessage c role content u mid now _ =>
      exact inv_addMessage db c role content u mid now h
  | ofDeleteChat c u => exact inv_deleteChat db c u h
  | ofCreateUser email isAdmin uid kid key now h1 _ _ =>
      exact inv_createUser db email isAdmin uid kid key now h1 h
  | ofGenerateApiKey u kid key now _ _ =>
      exact inv_generateApiKey db u kid key now h
  | ofRevokeApiKey k => exact inv_revokeApiKey db k h
  | ofUpdateApiSettings u s now => exact inv_updateApiSettings db u s now h
  | ofResetAdminApiKey kid key now _ _ =>
      exact inv_resetAdminApiKey db kid key now h

/-- The uniqueness invariants hold in every reachable state. -/
theorem reachable_inv {db : DB} (h : Reachable db) : Inv db := by
  induction h with
  | init => exact ⟨List.nodup_nil, List.nodup_nil, List.nodup_nil⟩
  | step _ s ih => exact step_inv s ih

/-! ## C4 — at most one API key and one settings row per user -/

/-- C4: in every state reachable by any sequence of the service's
operations (in particular `createUser`, `generateApiKey`,
`updateApiSettings`, `resetAdminApiKey`, `revokeApiKey`), each user
identifier has at most one row in `api_keys` and at most one row in
`api_settings`. -/
theorem C4_per_user_uniqueness (db : DB) (h : Reachable db) :
    ApiKeysPerUserUnique db ∧ ApiSettingsPerUserUnique db :=
  ⟨(reachable_inv h).1, (reachable_inv h).2.1⟩

/-- Witness for C4: the state reached by bootstrapping the admin user. -/
theorem C4_per_user_uniqueness_witness :
    ApiKeysPerUserUnique
      (createUser emptyDB "admin@example.com" true "u-admin" "k-admin" "KEY" "T0").2 ∧
    ApiSettingsPerUserUnique
      (createUser emptyDB "admin@example.com" true "u-admin" "k-admin" "KEY" "T0").2 :=
  C4_per_user_uniqueness _
    (Reachable.step Reachable.init
      (Step.ofCreateUser emptyDB "admin@example.com" true "u-admin" "k-admin"
        "KEY" "T0" (by decide) (by decide) (by decide)))

/-! ## C8 — unique emails and idempotence of `createUser` -/

/-- C8: user emails are unique in every reachable state, and `createUser`
is idempotent in the email: when a user with email `e` exists it inserts no
user row and returns that user with their existing API key, creating a key
(and default settings only when absent) only when the user has none. -/
theorem C8_email_unique_idempotent (db : DB) (e : String) (isAdmin : Bool)
    (uid kid key now : String) :
    (Reachable db → EmailsUnique db) ∧
    (∀ u0, getUserByEmail db e = some u0 →
      (createUser db e isAdmin uid kid key now).2.users = db.users ∧
      (createUser db e isAdmin uid kid key now).1.1 = some u0 ∧
      (∀ k0, db.api_keys.find? (fun k => k.user_id == u0.id) = some k0 →
        (createUser db e isAdmin uid kid key now).1.2 = k0.key ∧
        (createUser db e isAdmin uid kid key now).2 = db) ∧
      (db.api_keys.find? (fun k => k.user_id == u0.id) = none →
        (createUser db e isAdmin uid kid key now).1.2 = key ∧
        (createUser db e isAdmin uid kid key now).2.api_keys =
          db.api_keys ++ [⟨kid, u0.id, key, now⟩] ∧
        (db.api_settings.any (fun s => s.user_id == u0.id) = true →
          (createUser db e isAdmin uid kid key now).2.api_settings =
            db.api_settings) ∧
        (db.api_settings.any (fun s => s.user_id == u0.id) = false →
          (createUser db e isAdmin uid kid key now).2.api_settings =
            db.api_settings ++ [defaultSettingsRow u0.id now]))) := by
  refine ⟨fun hr => (reachable_inv hr).2.2, ?_⟩
  intro u0 he
  refine ⟨?_, ?_, ?_, ?_⟩
  · cases hk : db.api_keys.find? (fun k => k.user_id == u0.id) with
    | some k0 => simp [createUser, he, hk]
    | none =>
        by_cases hs : db.api_settings.any (fun s => s.user_id == u0.id) <;>
          simp [createUser, he, hk, hs]
  · cases hk : db.api_keys.find? (fun k => k.user_id == u0.id) with
    | some k0 => simp [createUser, he, hk]
    | none =>
        by_cases hs : db.api_settings.any (fun s => s.user_id == u0.id) <;>
          simp [createUser, he, hk, hs]
  · intro k0 hk
    constructor <;> simp [createUser, he, hk]
  · intro hk
    refine ⟨?_, ?_, ?_, ?_⟩
    · by_cases hs : db.api_settings.any (fun s => s.user_id == u0.id) <;>
        simp [createUser, he, hk, hs]
    · by_cases hs : db.api_settings.any (fun s => s.user_id == u0.id) <;>
        simp [createUser, he, hk, hs]
    · intro hs
      simp [createUser, he, hk, hs]
    · intro hs
      simp [createUser, he, hk, hs]

/-- Witness for C8: calling `createUser` a second time for
`admin@example.com` after the bootstrap leaves the database unchanged and
returns the stored user and key. -/
theorem C8_email_unique_idempotent_witness :
    EmailsUnique
      (createUser emptyDB "admin@example.com" true "u-admin" "k-admin" "KEY" "T0").2 ∧
    (createUser
        (createUser emptyDB "admin@example.com" true "u-admin" "k-admin" "KEY" "T0").2
        "admin@example.com" false "x1" "x2" "x3" "T9").2 =
      (createUser emptyDB "admin@example.com" true "u-admin" "k-admin" "KEY" "T0").2 ∧
    (createUser
        (createUser emptyDB "admin@example.com" true "u-admin" "k-admin" "KEY" "T0").2
        "admin@example.com" false "x1" "x2" "x3" "T9").1.1 =
      some ⟨"u-admin", "admin@example.com", true, "T0"⟩ ∧
    (createUser
        (createUser emptyDB "admin@example.com" true "u-admin" "k-admin" "KEY" "T0").2
        "admin@example.com" false "x1" "x2" "x3" "T9").1.2 = "KEY" := by
  have H := C8_email_unique_idempotent
    (createUser emptyDB "admin@example.com" true "u-admin" "k-admin" "KEY" "T0").2
    "admin@example.com" false "x1" "x2" "x3" "T9"
  have H2 := H.2 ⟨"u-admin", "admin@example.com", true, "T0"⟩ (by decide)
  have H3 := H2.2.2.1 ⟨"k-admin", "u-admin", "KEY", "T0"⟩ (by decide)
  exact ⟨H.1 (Reachable.step Reachable.init
      (Step.ofCreateUser emptyDB "admin@example.com" true "u-admin" "k-admin"
        "KEY" "T0" (by decide) (by decide) (by decide))),
    H3.2, H2.2.1, H3.1⟩

/-! ## C5 / C10 — API key rotation and validation -/

/-- A key string that occurs in no `api_keys` row validates to null. -/
theorem validateApiKey_eq_none_of_no_key (db : DB) (k : String)
    (h : ∀ ak ∈ db.api_keys, ak.key ≠ k) : validateApiKey db k = none := by
  unfold validateApiKey
  rw [List.head?_eq_none_iff, List.filter_eq_nil_iff]
  intro u _
  intro hany
  obtain ⟨ak, hak, hp⟩ := List.any_eq_true.mp hany
  simp only [Bool.and_eq_true, beq_iff_eq] at hp
  exact h ak hak hp.2

/-- C5: `generateApiKey(u)` throws `'User not found'` and changes nothing
when no user row has id `u`; otherwise it deletes every `api_keys` row with
user_id `u`, inserts exactly one fresh key, and returns it, so the returned
key is `u`'s only key and any previously held key no longer validates.
`hkeys` is the schema's `UNIQUE` constraint on `api_keys.key`; `hfresh`
says the freshly generated UUID collides with no stored key. -/
theorem C5_generateApiKey_rotation (db : DB) (u kid key now : String)
    (hkeys : (db.api_keys.map (fun a => a.key)).Nodup)
    (hfresh : ∀ a ∈ db.api_keys, a.key ≠ key) :
    ((∀ r ∈ db.users, r.id ≠ u) →
      (generateApiKey db u kid key now).1 = .error "User not found" ∧
      (generateApiKey db u kid key now).2 = db) ∧
    (∀ r0 ∈ db.users, r0.id = u →
      (generateApiKey db u kid key now).1 = .ok key ∧
      (generateApiKey db u kid key now).2.api_keys =
        db.api_keys.filter (fun a => !(a.user_id == u)) ++ [⟨kid, u, key, now⟩] ∧
      (generateApiKey db u kid key now).2.api_keys.filter
          (fun a => a.user_id == u) = [⟨kid, u, key, now⟩] ∧
      (∀ oldKey, (∃ a ∈ db.api_keys, a.user_id = u ∧ a.key = oldKey) →
        validateApiKey (generateApiKey db u kid key now).2 oldKey = none)) := by
  constructor
  · intro h
    have hf : db.users.find? (fun x => x.id == u) = none := by
      rw [List.find?_eq_none]
      intro r hr
      simpa using h r hr
    constructor <;> simp [generateApiKey, hf]
  · intro r0 hr0 hid
    cases hf : db.users.find? (fun x => x.id == u) with
    | none =>
        have := List.find?_eq_none.mp hf r0 hr0
        simp [hid] at this
    | some _ =>
        have heq : (generateApiKey db u kid key now).2.api_keys =
            db.api_keys.filter (fun a => !(a.user_id == u)) ++
              [(⟨kid, u, key, now⟩ : ApiKeyRow)] := by
          simp [generateApiKey, hf]
        refine ⟨by simp [generateApiKey, hf], heq, ?_, ?_⟩
        · rw [heq, List.filter_append, List.filter_filter]
          have hnil : db.api_keys.filter
              (fun a => (a.user_id == u) && !(a.user_id == u)) = [] := by
            rw [List.filter_eq_nil_iff]
            intro a _
            by_cases hb : (a.user_id == u) = true <;> simp [hb]
          rw [hnil]
          simp [List.filter_cons]
        · intro oldKey hold
          obtain ⟨a0, ha0, ha0u, ha0k⟩ := hold
          apply validateApiKey_eq_none_of_no_key
          intro ak hak
          rw [heq] at hak
          rcases List.mem_append.mp hak with hmem | hmem
          · obtain ⟨hmem', hpred⟩ := List.mem_filter.mp hmem
            intro hcon
            have : ak = a0 := List.inj_on_of_nodup_map hkeys hmem' ha0
              (by rw [hcon, ha0k])
            rw [this, ha0u] at hpred
            simp at hpred
          · have : ak = ⟨kid, u, key, now⟩ := by simpa using hmem
            rw [this]
            intro hcon
            exact hfresh a0 ha0 (by rw [ha0k, ← hcon])

/-- Witness for C5: `u1` holds key `OLD`; regeneration replaces it with
`NEW`, after which `OLD` no longer validates; an unknown user id fails. -/
theorem C5_generateApiKey_rotation_witness :
    (generateApiKey ⟨[⟨"u1", "a@x", false, "T1"⟩],
        [⟨"k1", "u1", "OLD", "T1"⟩], [], [], []⟩ "u1" "k2" "NEW" "T2").1 =
      .ok "NEW" ∧
    (generateApiKey ⟨[⟨"u1", "a@x", false, "T1"⟩],
        [⟨"k1", "u1", "OLD", "T1"⟩], [], [], []⟩ "u1" "k2" "NEW" "T2").2.api_keys.filter
        (fun a => a.user_id == "u1") = [⟨"k2", "u1", "NEW", "T2"⟩] ∧
    validateApiKey
      (generateApiKey ⟨[⟨"u1", "a@x", false, "T1"⟩],
        [⟨"k1", "u1", "OLD", "T1"⟩], [], [], []⟩ "u1" "k2" "NEW" "T2").2 "OLD" =
      none ∧
    (generateApiKey ⟨[⟨"u1", "a@x", false, "T1"⟩],
        [⟨"k1", "u1", "OLD", "T1"⟩], [], [], []⟩ "zz" "k2" "NEW" "T2").1 =
      .error "User not found" := by
  have H := C5_generateApiKey_rotation
    ⟨[⟨"u1", "a@x", false, "T1"⟩], [⟨"k1", "u1", "OLD", "T1"⟩], [], [], []⟩
    "u1" "k2" "NEW" "T2" (by decide) (by decide)
  have H2 := H.2 ⟨"u1", "a@x", false, "T1"⟩ (by decide) rfl
  have H0 := (C5_generateApiKey_rotation
    ⟨[⟨"u1", "a@x", false, "T1"⟩], [⟨"k1", "u1", "OLD", "T1"⟩], [], [], []⟩
    "zz" "k2" "NEW" "T2" (by decide) (by decide)).1 (by decide)
  exact ⟨H2.1, H2.2.2.1, H2.2.2.2 "OLD" ⟨⟨"k1", "u1", "OLD", "T1"⟩,
    by decide, rfl, rfl⟩, H0.1⟩

/-- C10: after `revokeApiKey(k)`, `validateApiKey(k)` is null; and
`validateApiKey(k)` returns a user exactly when some `api_keys` row has key
`k`, namely the user row referenced by that key's `user_id`.  The
hypotheses are the schema's constraints: `hfk` the `FOREIGN KEY` from
`api_keys.user_id` to `users.id`, `hkeys` the `UNIQUE` on `api_keys.key`,
`hids` the `PRIMARY KEY` on `users.id`. -/
theorem C10_validate_revoke (db : DB) (k : String)
    (hfk : ∀ ak ∈ db.api_keys, ∃ u ∈ db.users, u.id = ak.user_id)
    (hkeys : (db.api_keys.map (fun a => a.key)).Nodup)
    (hids : (db.users.map (fun u => u.id)).Nodup) :
    validateApiKey (revokeApiKey db k) k = none ∧
    ((validateApiKey db k).isSome ↔ ∃ ak ∈ db.api_keys, ak.key = k) ∧
    (∀ ak ∈ db.api_keys, ak.key = k → ∀ u0 ∈ db.users, u0.id = ak.user_id →
      validateApiKey db k = some u0) := by
  refine ⟨?_, ?_, ?_⟩
  · apply validateApiKey_eq_none_of_no_key
    intro ak hak
    have := (List.mem_filter.mp hak).2
    simpa using this
  · constructor
    · intro hsome
      obtain ⟨u0, hu0⟩ := Option.isSome_iff_exists.mp hsome
      have hmem : u0 ∈ db.users.filter (fun u =>
          db.api_keys.any (fun ak => ak.user_id == u.id && ak.key == k)) := by
        have := List.mem_of_mem_head? (by rw [show (db.users.filter _).head? =
          validateApiKey db k from rfl, hu0]; exact rfl)
        exact this
      obtain ⟨ak, hak, hp⟩ := List.any_eq_true.mp (List.mem_filter.mp hmem).2
      simp only [Bool.and_eq_true, beq_iff_eq] at hp
      exact ⟨ak, hak, hp.2⟩
    · rintro ⟨ak, hak, hkey⟩
      obtain ⟨u0, hu0, hu0id⟩ := hfk ak hak
      have hmem : u0 ∈ db.users.filter (fun u =>
          db.api_keys.any (fun a => a.user_id == u.id && a.key == k)) :=
        List.mem_filter.mpr ⟨hu0,
          List.any_eq_true.mpr ⟨ak, hak, by simp [hu0id.symm, hkey]⟩⟩
      unfold validateApiKey
      cases hfil : db.users.filter (fun u =>
          db.api_keys.any (fun a => a.user_id == u.id && a.key == k)) with
      | nil => rw [hfil] at hmem; simp at hmem
      | cons a as => simp
  · intro ak hak hkey u0 hu0 hu0id
    have hpt : ∀ u ∈ db.users,
        (db.api_keys.any (fun a => a.user_id == u.id && a.key == k)) =
          (u.id == ak.user_id) := by
      intro u _
      by_cases hb : u.id = ak.user_id
      · have : db.api_keys.any (fun a => a.user_id == u.id && a.key == k) = true :=
          List.any_eq_true.mpr ⟨ak, hak, by simp [hb, hkey]⟩
        rw [this]
        simp [hb]
      · have : db.api_keys.any (fun a => a.user_id == u.id && a.key == k) = false := by
          rw [List.any_eq_false]
          intro a ha hp
          simp only [Bool.and_eq_true, beq_iff_eq] at hp
          have : a = ak := List.inj_on_of_nodup_map hkeys ha hak
            (by rw [hp.2, hkey])
          exact hb (by rw [← hp.1, this])
        rw [this]
        simp [hb]
    unfold validateApiKey
    rw [List.filter_congr hpt, head?_filter_eq_find?]
    cases hf : db.users.find? (fun u => u.id == ak.user_id) with
    | none =>
        have := List.find?_eq_none.mp hf u0 hu0
        simp [hu0id] at this
    | some u1 =>
        have hu1 : u1 ∈ db.users := List.mem_of_find?_eq_some hf
        have hu1id : u1.id = ak.user_id := by simpa using List.find?_some hf
        have : u1 = u0 := List.inj_on_of_nodup_map hids hu1 hu0
          (by rw [hu1id, hu0id])
        rw [this]

/-- Witness for C10: `u1` holds key `K1`; validation returns `u1`'s row and
fails after revocation. -/
theorem C10_validate_revoke_witness :
    validateApiKey
      (revokeApiKey ⟨[⟨"u1", "a@x", false, "T1"⟩],
        [⟨"k1", "u1", "K1", "T1"⟩], [], [], []⟩ "K1") "K1" = none ∧
    validateApiKey ⟨[⟨"u1", "a@x", false, "T1"⟩],
        [⟨"k1", "u1", "K1", "T1"⟩], [], [], []⟩ "K1" =
      some ⟨"u1", "a@x", false, "T1"⟩ := by
  have H := C10_validate_revoke
    ⟨[⟨"u1", "a@x", false, "T1"⟩], [⟨"k1", "u1", "K1", "T1"⟩], [], [], []⟩
    "K1" (by decide) (by decide) (by decide)
  exact ⟨H.1, H.2.2 ⟨"k1", "u1", "K1", "T1"⟩ (by decide) rfl
    ⟨"u1", "a@x", false, "T1"⟩ (by decide) rfl⟩

/-! ## C7 — admin bootstrap on first run -/

theorem length_insertSorted {α : Type} (le : α → α → Bool) (a : α) :
    ∀ l : List α, (insertSorted le a l).length = l.length + 1 := by
  intro l
  induction l with
  | nil => rfl
  | cons b bs ih =>
      by_cases hb : le a b = true <;> simp [insertSorted, hb, ih]

theorem length_sortBy {α : Type} (le : α → α → Bool) :
    ∀ l : List α, (sortBy le l).length = l.length := by
  intro l
  induction l with
  | nil => rfl
  | cons b bs ih => simp [sortBy, length_insertSorted, ih]

/-- C7: on a database whose `users` table is empty, `initializeDb` creates
exactly one user row — email `admin@example.com`, `is_admin` true —
together with one API key row and one default `api_settings` row for that
user; on a database with users it creates nothing.  `hk`/`hs` are the
freshness of the bootstrap UUID. -/
theorem C7_admin_bootstrap (db : DB) (uid kid key now : String)
    (hk : ∀ a ∈ db.api_keys, a.user_id ≠ uid)
    (hs : ∀ s ∈ db.api_settings, s.user_id ≠ uid) :
    (db.users = [] →
      (initializeDb db uid kid key now).users =
        [⟨uid, "admin@example.com", true, now⟩] ∧
      (initializeDb db uid kid key now).api_keys.filter
          (fun a => a.user_id == uid) = [⟨kid, uid, key, now⟩] ∧
      (initializeDb db uid kid key now).api_settings.filter
          (fun s => s.user_id == uid) = [defaultSettingsRow uid now]) ∧
    (db.users ≠ [] → initializeDb db uid kid key now = db) := by
  constructor
  · intro hempty
    have hl : (listUsers db).isEmpty = true := by
      simp [listUsers, orderByCreatedDesc, hempty, sortBy]
    have hge : getUserByEmail db "admin@example.com" = none := by
      unfold getUserByEmail
      rw [hempty]
      rfl
    have hinit : initializeDb db uid kid key now =
        (createUser db "admin@example.com" true uid kid key now).2 := by
      simp [initializeDb, hl]
    have hkeys : db.api_keys.filter (fun a => a.user_id == uid) = [] := by
      rw [List.filter_eq_nil_iff]
      intro a ha
      simpa using hk a ha
    have hsets : db.api_settings.filter (fun s => s.user_id == uid) = [] := by
      rw [List.filter_eq_nil_iff]
      intro s hsm
      simpa using hs s hsm
    refine ⟨?_, ?_, ?_⟩
    · rw [hinit]
      simp [createUser, hge, hempty]
    · rw [hinit]
      have : (createUser db "admin@example.com" true uid kid key now).2.api_keys =
          db.api_keys ++ [(⟨kid, uid, key, now⟩ : ApiKeyRow)] := by
        simp [createUser, hge]
      rw [this, List.filter_append, hkeys]
      simp [List.filter_cons]
    · rw [hinit]
      have : (createUser db "admin@example.com" true uid kid key now).2.api_settings =
          db.api_settings ++ [defaultSettingsRow uid now] := by
        simp [createUser, hge]
      rw [this, List.filter_append, hsets]
      simp [List.filter_cons, defaultSettingsRow]
  · intro hne
    have hlen : (listUsers db).length = db.users.length := length_sortBy _ _
    have hl : (listUsers db).isEmpty = false := by
      cases hL : listUsers db with
      | cons a as => rfl
      | nil =>
          rw [hL] at hlen
          cases hu : db.users with
          | nil => exact absurd hu hne
          | cons b bs => rw [hu] at hlen; simp at hlen
    simp [initializeDb, hl]

/-- Witness for C7: bootstrapping the empty database, and a no-op run
against a database that already has a user. -/
theorem C7_admin_bootstrap_witness :
    (initializeDb emptyDB "au" "ak" "AK" "T0").users =
      [⟨"au", "admin@example.com", true, "T0"⟩] ∧
    (initializeDb emptyDB "au" "ak" "AK" "T0").api_keys.filter
        (fun a => a.user_id == "au") = [⟨"ak", "au", "AK", "T0"⟩] ∧
    (initializeDb emptyDB "au" "ak" "AK" "T0").api_settings.filter
        (fun s => s.user_id == "au") = [defaultSettingsRow "au" "T0"] ∧
    initializeDb ⟨[⟨"u1", "a@x", false, "T1"⟩], [], [], [], []⟩
        "au" "ak" "AK" "T0" =
      ⟨[⟨"u1", "a@x", false, "T1"⟩], [], [], [], []⟩ := by
  have H := C7_admin_bootstrap emptyDB "au" "ak" "AK" "T0"
    (by decide) (by decide)
  have H1 := H.1 rfl
  have H2 := (C7_admin_bootstrap
    ⟨[⟨"u1", "a@x", false, "T1"⟩], [], [], [], []⟩ "au" "ak" "AK" "T0"
    (by decide) (by decide)).2 (by decide)
  exact ⟨H1.1, H1.2.1, H1.2.2, H2⟩

/-! ## C6 — the chat record and the forwarded conversation -/

/-- C6 (evaluation at the divergence): `createChat` stores a row holding
exactly the five columns `id`, `title`, `user_id`, `created_at`,
`last_message` — the chat record of `TursoService` carries no
`system_prompt` attribute, and `createChat(title, userId)` accepts none —
while `handleMessageSubmit` builds the outbound `messages` array as a
system message whose content is `chat.system_prompt` (necessarily
`undefined`, i.e. `none`, for a stored chat) followed by the prior turns
followed by the new user turn, in that order. -/
theorem C6_chat_record_and_conversation (db : DB)
    (title userId chatId now msg : String) (prior : List MessageRow) :
    (createChat db title userId chatId now).2.chats =
      db.chats ++ [⟨chatId, title, userId, now, none⟩] ∧
    buildConversation none prior msg =
      ⟨"system", none⟩ ::
        (prior.map (fun m =>
          ⟨(match m.role with | .user => "user" | .assistant => "assistant"),
           some m.content⟩) ++ [⟨"user", some msg⟩]) :=
  ⟨rfl, rfl⟩

end AgentChat
